import Mathlib

/-!
Verification of `generate_database.py`: a one-shot tool that converts a
KANJIDIC2 XML dictionary into a SQLite database.

The script is embedded shallowly:

* the parsed XML document is a `List Character`, where each `Character`
  mirrors what the script reads from a `<character>` element
  (`find('literal')`, `find('misc')`, `find('reading_meaning')/find('rmgroup')`,
  `findall('reading')`, `findall('meaning')`); an `Option (Option String)`
  models an optional element whose `.text` may itself be `None`;
* the SQLite database is a `DB` record of row lists, one per table;
* every fatal Python exception that the script can raise while populating
  the database (a `ValueError`/`TypeError` from `int(...)`, a sqlite3
  `IntegrityError` from a NOT NULL or PRIMARY KEY constraint) is an
  explicit `PyError`, and each fallible step returns `Except PyError DB`.
-/

/-- Errors that abort the run (all uncaught in the script, hence fatal). -/
inductive PyError where
  /-- `int(text)` raised `ValueError` (non-numeric text) or `TypeError` (text is `None`). -/
  | typeOrValueError : PyError
  /-- sqlite3 `IntegrityError`: NOT NULL constraint failed. -/
  | notNullViolation : PyError
  /-- sqlite3 `IntegrityError`: UNIQUE / PRIMARY KEY constraint failed. -/
  | uniqueViolation : PyError
deriving DecidableEq, Repr

/-- The misc element (lines 124-139): four optional child elements, each with
optional text. `some t` means the child element is present with text `t`
(where `t = none` models an empty element whose `.text` is `None`). -/
structure MiscElem where
  grade : Option (Option String)
  stroke_count : Option (Option String)
  freq : Option (Option String)
  jlpt : Option (Option String)
deriving DecidableEq, Repr

/-- One `reading` element inside `rmgroup`: an optional `r_type` attribute
(`.get('r_type')`) and optional text. -/
structure ReadingElem where
  r_type : Option String
  text : Option String
deriving DecidableEq, Repr

/-- One `meaning` element inside `rmgroup`: an optional `m_lang` attribute
(`.get('m_lang')`) and optional text. -/
structure MeaningElem where
  m_lang : Option String
  text : Option String
deriving DecidableEq, Repr

/-- The `rmgroup` element: its `reading` and `meaning` children in document order. -/
structure RMGroup where
  readings : List ReadingElem
  meanings : List MeaningElem
deriving DecidableEq, Repr

/-- A top-level `character` element, restricted to what the script reads.
`literal : Option (Option String)` models `character.find('literal')`
(element may be absent) whose `.text` may be `None`;
`reading_meaning : Option (Option RMGroup)` models
`character.find('reading_meaning')` and, inside it, `find('rmgroup')`. -/
structure Character where
  literal : Option (Option String)
  misc : Option MiscElem
  reading_meaning : Option (Option RMGroup)
deriving DecidableEq, Repr

/-- A row of the `kanji` table (DDL lines 34-42): `literal TEXT NOT NULL
PRIMARY KEY`, four nullable INTEGER columns. -/
structure KanjiRow where
  literal : String
  grade : Option Int
  strokeCount : Option Int
  freq : Option Int
  jlpt : Option Int
deriving DecidableEq, Repr

/-- A row of the `readings` table (DDL lines 46-53), all three data columns
NOT NULL; the AUTOINCREMENT `id` is the list position and is not modelled. -/
structure ReadingRow where
  literal : String
  readingType : String
  reading : String
deriving DecidableEq, Repr

/-- A row of the `meanings` table (DDL lines 57-63), both data columns NOT NULL. -/
structure MeaningRow where
  literal : String
  meaning : String
deriving DecidableEq, Repr

/-- The database file content: one list of rows per table, in insertion
order. `dictionary_metadata` rows are (key, value) pairs,
`room_table_modification_log` rows are (table_id, invalidated) pairs,
`room_master_table` rows are (id, identity_hash) pairs. -/
structure DB where
  kanji : List KanjiRow
  readings : List ReadingRow
  meanings : List MeaningRow
  dictionary_metadata : List (String × String)
  room_table_modification_log : List (Int × Int)
  room_master_table : List (Int × String)
deriving DecidableEq, Repr

/-- Numeric value of a list of decimal digit characters. -/
def digitsVal (l : List Char) : Nat :=
  l.foldl (fun a c => a * 10 + (c.toNat - 48)) 0

/-- Parse a nonempty all-digit character list, else `none`. -/
def parseDigits (l : List Char) : Option Nat :=
  if !l.isEmpty && l.all Char.isDigit then some (digitsVal l) else none

/-- ASCII whitespace, as stripped by Python `int(str)` around the number. -/
def isSpaceChar (c : Char) : Bool :=
  c == ' ' || c == '\t' || c == '\n' || c == '\r' || c == '\x0b' || c == '\x0c'

/-- Strip leading and trailing whitespace from a character list. -/
def trimChars (l : List Char) : List Char :=
  ((l.dropWhile isSpaceChar).reverse.dropWhile isSpaceChar).reverse

/-- Model of Python `int(s)` on a string: surrounding whitespace is
stripped, an optional sign is followed by decimal digits; anything else
raises (returns `none`). (Python additionally allows underscores between
digits and non-ASCII digits or spaces; no KANJIDIC2 numeric field uses
those and the claims do not depend on that case.) -/
def parseIntStr (s : String) : Option Int :=
  match trimChars s.toList with
  | [] => none
  | '+' :: rest => (parseDigits rest).map Int.ofNat
  | '-' :: rest => (parseDigits rest).map (fun n => -(Int.ofNat n : Int))
  | l => (parseDigits l).map Int.ofNat

/-- Model of `int(elem.text)`: `TypeError` when the text is `None`,
`ValueError` when it is not a valid integer literal. -/
def pyInt (t : Option String) : Except PyError Int :=
  match t with
  | none => .error .typeOrValueError
  | some s =>
    match parseIntStr s with
    | some n => .ok n
    | none => .error .typeOrValueError

/-- One optional misc field (e.g. lines 125-127): absent element gives the
Python `None` (stored later as SQL NULL); present element has its text fed
to `int(...)`. -/
def parseMiscField (f : Option (Option String)) : Except PyError (Option Int) :=
  match f with
  | none => .ok none
  | some t =>
    match pyInt t with
    | .ok n => .ok (some n)
    | .error e => .error e

/-- The misc block (lines 118-139): grade, stroke_count, freq, jlpt parsed
in source order; all four stay `none` when the misc element is absent. -/
def parseMisc (m : Option MiscElem) :
    Except PyError (Option Int × Option Int × Option Int × Option Int) :=
  match m with
  | none => .ok (none, none, none, none)
  | some me =>
    match parseMiscField me.grade with
    | .error e => .error e
    | .ok g =>
      match parseMiscField me.stroke_count with
      | .error e => .error e
      | .ok sc =>
        match parseMiscField me.freq with
        | .error e => .error e
        | .ok f =>
          match parseMiscField me.jlpt with
          | .error e => .error e
          | .ok j => .ok (g, sc, f, j)

/-- The kanji INSERT (lines 142-145). The NOT NULL constraint on `literal`
rejects a `None` literal text; the PRIMARY KEY constraint rejects a
duplicate literal. -/
def insertKanji (db : DB) (lit : Option String)
    (g sc f j : Option Int) : Except PyError DB :=
  match lit with
  | none => .error .notNullViolation
  | some s =>
    if db.kanji.any (fun r => r.literal == s) then .error .uniqueViolation
    else .ok { db with kanji := db.kanji ++ [⟨s, g, sc, f, j⟩] }

/-- The readings INSERT (lines 156-159): NOT NULL on `literal` and `reading`
(`readingType` is the already-checked `r_type` string). -/
def insertReading (db : DB) (lit : Option String) (rt : String)
    (txt : Option String) : Except PyError DB :=
  match lit, txt with
  | some s, some t => .ok { db with readings := db.readings ++ [⟨s, rt, t⟩] }
  | _, _ => .error .notNullViolation

/-- The meanings INSERT (lines 164-167): NOT NULL on `literal` and `meaning`. -/
def insertMeaning (db : DB) (lit : Option String)
    (txt : Option String) : Except PyError DB :=
  match lit, txt with
  | some s, some t => .ok { db with meanings := db.meanings ++ [⟨s, t⟩] }
  | _, _ => .error .notNullViolation

/-- Whether a reading element passes the filter on line 155:
`r_type in ('ja_on', 'ja_kun')` (a missing attribute is Python `None`,
which is not in the tuple). -/
def isKeptReading (r : ReadingElem) : Bool :=
  match r.r_type with
  | some rt => rt == "ja_on" || rt == "ja_kun"
  | none => false

/-- The readings loop (lines 153-159): in document order, insert each
reading whose `r_type` is `ja_on` or `ja_kun`, silently skipping the rest. -/
def insertReadings (lit : Option String) (db : DB) :
    List ReadingElem → Except PyError DB
  | [] => .ok db
  | r :: rest =>
    match r.r_type with
    | some rt =>
      if rt == "ja_on" || rt == "ja_kun" then
        match insertReading db lit rt r.text with
        | .ok db1 => insertReadings lit db1 rest
        | .error e => .error e
      else insertReadings lit db rest
    | none => insertReadings lit db rest

/-- The meanings loop (lines 162-167): in document order, insert each
meaning with no `m_lang` attribute, silently skipping the rest. -/
def insertMeanings (lit : Option String) (db : DB) :
    List MeaningElem → Except PyError DB
  | [] => .ok db
  | m :: rest =>
    match m.m_lang with
    | none =>
      match insertMeaning db lit m.text with
      | .ok db1 => insertMeanings lit db1 rest
      | .error e => .error e
    | some _ => insertMeanings lit db rest

/-- `character.find('reading_meaning')` followed by `find('rmgroup')`
(lines 148-151): the group is reachable only when both elements exist. -/
def rmgroupOf (c : Character) : Option RMGroup :=
  match c.reading_meaning with
  | none => none
  | some rm => rm

/-- One iteration of the character loop (lines 109-167): skip the entry when
the literal element is absent; otherwise parse misc, insert the kanji row,
then (when `reading_meaning`/`rmgroup` exist) insert the kept readings and
meanings, all attributed to this entry's literal text. -/
def processCharacter (db : DB) (c : Character) : Except PyError DB :=
  match c.literal with
  | none => .ok db
  | some litText =>
    match parseMisc c.misc with
    | .error e => .error e
    | .ok (g, sc, f, j) =>
      match insertKanji db litText g sc f j with
      | .error e => .error e
      | .ok db1 =>
        match rmgroupOf c with
        | none => .ok db1
        | some grp =>
          match insertReadings litText db1 grp.readings with
          | .error e => .error e
          | .ok db2 => insertMeanings litText db2 grp.meanings

/-- The whole character loop `for character in root.findall('character')`:
process entries in document order, stopping at the first uncaught error. -/
def extractChars (db : DB) : List Character → Except PyError DB
  | [] => .ok db
  | c :: rest =>
    match processCharacter db c with
    | .ok db1 => extractChars db1 rest
    | .error e => .error e

/-- INSERT into `dictionary_metadata` (lines 178-179): `key` is TEXT NOT NULL
PRIMARY KEY, both values here are non-null string constants. -/
def insertMetadata (db : DB) (k v : String) : Except PyError DB :=
  if db.dictionary_metadata.any (fun p => p.1 == k) then .error .uniqueViolation
  else .ok { db with dictionary_metadata := db.dictionary_metadata ++ [(k, v)] }

/-- Lines 26-28: `os.remove(db_file)` when it exists — the output path never
holds a pre-existing file afterwards, whatever was there before. -/
def removeDbFile (_prior : Option DB) : Option DB := none

/-- `sqlite3.connect(db_file)` (line 30): opens the file at the output path,
creating an empty database when no file exists there. -/
def connectDb (file : Option DB) : DB :=
  match file with
  | some db => db
  | none => { kanji := [], readings := [], meanings := [],
              dictionary_metadata := [],
              room_table_modification_log := [],
              room_master_table := [] }

/-- Schema creation and the fixed bookkeeping INSERTs (lines 34-99): the five
`room_table_modification_log` rows (ids 0-4, invalidated 0) and the single
`room_master_table` row `(42, 'PLACEHOLDER_HASH')`. -/
def createSchemaRows (db : DB) : DB :=
  { db with
    room_table_modification_log :=
      db.room_table_modification_log ++ [(0, 0), (1, 0), (2, 0), (3, 0), (4, 0)],
    room_master_table := db.room_master_table ++ [(42, "PLACEHOLDER_HASH")] }

/-- Database population from an already-initialized file: the character loop
(lines 109-174) followed by the two metadata INSERTs (lines 178-180). -/
def generateDatabaseFrom (db0 : DB) (doc : List Character) : Except PyError DB :=
  match extractChars db0 doc with
  | .error e => .error e
  | .ok db1 =>
    match insertMetadata db1 "kanjidic2_version" "2025-01" with
    | .error e => .error e
    | .ok db2 => insertMetadata db2 "dictionary_initialized" "true"

/-- The state of the freshly initialized database (after lines 26-99). -/
def initDB : DB := createSchemaRows (connectDb (removeDbFile none))

/-- A complete run past the argument checks, as a function of the parsed
document and of whatever file previously sat at the output path (which the
script deletes at lines 26-28 before rebuilding everything). -/
def runTool (prior : Option DB) (doc : List Character) : Except PyError DB :=
  generateDatabaseFrom (createSchemaRows (connectDb (removeDbFile prior))) doc

/-- A complete run on a parsed document, starting from a clean output path. -/
def generateDatabase (doc : List Character) : Except PyError DB :=
  generateDatabaseFrom initDB doc

deriving instance DecidableEq for Except

/-- Whether a run result is a fatal (uncaught) error. -/
def errored (r : Except PyError DB) : Bool :=
  match r with
  | .ok _ => false
  | .error _ => true

/-- Observable outcome of invoking the script (exit path taken). -/
inductive Outcome where
  /-- Usage message printed, `sys.exit(1)` (lines 14-16). -/
  | usageExit : Outcome
  /-- File-not-found message printed, `sys.exit(1)` (lines 19-21). -/
  | notFoundExit : Outcome
  /-- The run reached the database phase and finished with this result. -/
  | ran : Except PyError DB → Outcome
deriving DecidableEq, Repr

/-- What is left at the output path when the process ends. -/
inductive FileState where
  /-- Early exit: whatever file was there before is neither created nor deleted. -/
  | untouched : Option DB → FileState
  /-- Completed run: the output file holds exactly this content. -/
  | rebuilt : DB → FileState
  /-- Failed run: an incomplete output file remains (content not modelled). -/
  | incompleteFile : FileState
deriving DecidableEq, Repr

/-- Exit status of each outcome: 1 for both early exits (`sys.exit(1)`),
0 for a completed run, 1 for a run killed by an uncaught exception. -/
def exitCode : Outcome → Nat
  | .usageExit => 1
  | .notFoundExit => 1
  | .ran (.ok _) => 0
  | .ran (.error _) => 1

/-- The whole script as a function of the argument vector (`sys.argv`,
element 0 being the script name), the file-existence predicate
(`os.path.exists`), the XML parse of each existing path, and the file
previously at the output path. Mirrors lines 14-21: the argument-count
check and the input-existence check both exit before any operation on the
output file. -/
def mainScript (argv : List String) (fileOnDisk : String → Bool)
    (parseFile : String → List Character) (prior : Option DB) :
    Outcome × FileState :=
  match argv with
  | _ :: xmlFile :: _ =>
    if fileOnDisk xmlFile then
      match runTool prior (parseFile xmlFile) with
      | .ok db => (.ran (.ok db), .rebuilt db)
      | .error e => (.ran (.error e), .incompleteFile)
    else (.notFoundExit, .untouched prior)
  | _ => (.usageExit, .untouched prior)

/-- The end-to-end scenario entry of §8 of the spec: literal 水, misc
grade=1 stroke_count=4 freq=1915 jlpt=7, readings (ja_on, スイ) and
(ja_kun, みず), meanings "water" (no m_lang) and "eau" (m_lang="fr"). -/
def mizuChar : Character :=
  { literal := some (some "水"),
    misc := some { grade := some (some "1"), stroke_count := some (some "4"),
                   freq := some (some "1915"), jlpt := some (some "7") },
    reading_meaning := some (some
      { readings := [{ r_type := some "ja_on", text := some "スイ" },
                     { r_type := some "ja_kun", text := some "みず" }],
        meanings := [{ m_lang := none, text := some "water" },
                     { m_lang := some "fr", text := some "eau" }] }) }

/-- The database produced by a run whose document is the single 水 entry. -/
def mizuDB : DB :=
  { kanji := [⟨"水", some 1, some 4, some 1915, some 7⟩],
    readings := [⟨"水", "ja_on", "スイ"⟩, ⟨"水", "ja_kun", "みず"⟩],
    meanings := [⟨"水", "water"⟩],
    dictionary_metadata := [("kanjidic2_version", "2025-01"),
                            ("dictionary_initialized", "true")],
    room_table_modification_log := [(0, 0), (1, 0), (2, 0), (3, 0), (4, 0)],
    room_master_table := [(42, "PLACEHOLDER_HASH")] }

/-- The database produced by a run on an empty document. -/
def emptyRunDB : DB :=
  { kanji := [], readings := [], meanings := [],
    dictionary_metadata := [("kanjidic2_version", "2025-01"),
                            ("dictionary_initialized", "true")],
    room_table_modification_log := [(0, 0), (1, 0), (2, 0), (3, 0), (4, 0)],
    room_master_table := [(42, "PLACEHOLDER_HASH")] }

/-- A character entry with no literal element whose misc block carries a
grade element with non-numeric text. -/
def noLitBadMisc : Character :=
  { literal := none,
    misc := some { grade := some (some "not a number"), stroke_count := none,
                   freq := none, jlpt := none },
    reading_meaning := none }

/-- A character entry with a literal and a misc grade element whose text is
not a valid integer. -/
def badMiscChar : Character :=
  { literal := some (some "火"),
    misc := some { grade := some (some "x"), stroke_count := none,
                   freq := none, jlpt := none },
    reading_meaning := none }

/-- The database state right after the 水 entry is processed on a fresh
database (before the metadata rows are written). -/
def mizuStepDB : DB := { mizuDB with dictionary_metadata := [] }

/-- A character entry whose literal element is present but empty
(`literal.text` is Python `None`). -/
def litEmptyChar : Character :=
  { literal := some none, misc := none, reading_meaning := none }

/-- A character entry with a kept (`ja_on`) reading element that has no text. -/
def nullTextChar : Character :=
  { literal := some (some "火"), misc := none,
    reading_meaning := some (some
      { readings := [{ r_type := some "ja_on", text := none }], meanings := [] }) }

/-- A reading element whose type attribute is neither `ja_on` nor `ja_kun`. -/
def oddReading : ReadingElem := { r_type := some "ja_kana", text := some "あ" }

/-- A meaning element carrying a language qualifier. -/
def frMeaning : MeaningElem := { m_lang := some "fr", text := some "eau" }

/-- Referential integrity of a database state: every readings row and every
meanings row names a literal that the kanji table already contains. -/
def RefOK (db : DB) : Prop :=
  (∀ row ∈ db.readings, row.literal ∈ db.kanji.map (fun r => r.literal)) ∧
  (∀ row ∈ db.meanings, row.literal ∈ db.kanji.map (fun r => r.literal))

/-- The literal strings a character contributes to the kanji table:
one per present literal element with non-null text. -/
def charLit (c : Character) : List String :=
  match c.literal with
  | some (some s) => [s]
  | _ => []

/-- The meaning texts the script keeps for one character: nothing when the
literal, `reading_meaning` or `rmgroup` element is absent, else the texts of
exactly the meaning elements with no `m_lang` attribute, in document order. -/
def charKeptMeaningTexts (c : Character) : List (Option String) :=
  match c.literal with
  | none => []
  | some _ =>
    match rmgroupOf c with
    | none => []
    | some grp =>
      (grp.meanings.filter (fun x => x.m_lang.isNone)).map (fun x => x.text)

theorem insertKanji_ok_shape {db db' : DB} {lit : Option String}
    {g sc f j : Option Int} (h : insertKanji db lit g sc f j = .ok db') :
    ∃ s, lit = some s ∧ db.kanji.any (fun r => r.literal == s) = false ∧
      db' = { db with kanji := db.kanji ++ [⟨s, g, sc, f, j⟩] } := by
  cases lit with
  | none => simp [insertKanji] at h
  | some s =>
    by_cases hs : db.kanji.any (fun r => r.literal == s) = true
    · simp [insertKanji, hs] at h
    · simp only [insertKanji, if_neg hs, Except.ok.injEq] at h
      exact ⟨s, rfl, by simpa using hs, h.symm⟩

theorem insertReading_ok_shape {db db' : DB} {lit : Option String} {rt : String}
    {txt : Option String} (h : insertReading db lit rt txt = .ok db') :
    ∃ s t, lit = some s ∧ txt = some t ∧
      db' = { db with readings := db.readings ++ [⟨s, rt, t⟩] } := by
  cases lit with
  | none => simp [insertReading] at h
  | some s =>
    cases txt with
    | none => simp [insertReading] at h
    | some t =>
      simp only [insertReading, Except.ok.injEq] at h
      exact ⟨s, t, rfl, rfl, h.symm⟩

theorem insertMeaning_ok_shape {db db' : DB} {lit : Option String}
    {txt : Option String} (h : insertMeaning db lit txt = .ok db') :
    ∃ s t, lit = some s ∧ txt = some t ∧
      db' = { db with meanings := db.meanings ++ [⟨s, t⟩] } := by
  cases lit with
  | none => simp [insertMeaning] at h
  | some s =>
    cases txt with
    | none => simp [insertMeaning] at h
    | some t =>
      simp only [insertMeaning, Except.ok.injEq] at h
      exact ⟨s, t, rfl, rfl, h.symm⟩

theorem insertReadings_ok_shape (rs : List ReadingElem) :
    ∀ (lit : Option String) (db db' : DB), insertReadings lit db rs = .ok db' →
      db'.kanji = db.kanji ∧ db'.meanings = db.meanings ∧
      db'.dictionary_metadata = db.dictionary_metadata ∧
      db'.room_table_modification_log = db.room_table_modification_log ∧
      db'.room_master_table = db.room_master_table ∧
      ∃ rows, db'.readings = db.readings ++ rows ∧
        ∀ row ∈ rows, lit = some row.literal ∧
          (row.readingType = "ja_on" ∨ row.readingType = "ja_kun") := by
  induction rs with
  | nil =>
    intro lit db db' h
    simp only [insertReadings, Except.ok.injEq] at h
    subst h
    exact ⟨rfl, rfl, rfl, rfl, rfl, [], by simp, by simp⟩
  | cons r rest ih =>
    intro lit db db' h
    simp only [insertReadings] at h
    cases hrt : r.r_type with
    | none =>
      simp only [hrt] at h
      exact ih lit db db' h
    | some rt =>
      simp only [hrt] at h
      by_cases hb : (rt == "ja_on" || rt == "ja_kun") = true
      · rw [if_pos hb] at h
        cases hins : insertReading db lit rt r.text with
        | error e => simp only [hins] at h; exact absurd h (by simp)
        | ok db1 =>
          simp only [hins] at h
          obtain ⟨s, t, hlit, _, hdb1⟩ := insertReading_ok_shape hins
          obtain ⟨h1, h2, h3, h4, h5, rows, hrows, hprop⟩ := ih lit db1 db' h
          subst hdb1
          refine ⟨h1, h2, h3, h4, h5, ⟨s, rt, t⟩ :: rows, ?_, ?_⟩
          · rw [hrows]; simp
          · intro row hrow
            rcases List.mem_cons.mp hrow with hr | hr
            · subst hr
              constructor
              · exact hlit
              · have := hb
                simp only [Bool.or_eq_true, beq_iff_eq] at this
                exact this
            · exact hprop row hr
      · rw [if_neg hb] at h
        exact ih lit db db' h

theorem insertMeanings_ok_shape (ms : List MeaningElem) :
    ∀ (lit : Option String) (db db' : DB), insertMeanings lit db ms = .ok db' →
      db'.kanji = db.kanji ∧ db'.readings = db.readings ∧
      db'.dictionary_metadata = db.dictionary_metadata ∧
      db'.room_table_modification_log = db.room_table_modification_log ∧
      db'.room_master_table = db.room_master_table ∧
      ∃ rows, db'.meanings = db.meanings ++ rows ∧
        (∀ row ∈ rows, lit = some row.literal) ∧
        (ms.filter (fun x => x.m_lang.isNone)).map (fun x => x.text) =
          rows.map (fun row => some row.meaning) := by
  induction ms with
  | nil =>
    intro lit db db' h
    simp only [insertMeanings, Except.ok.injEq] at h
    subst h
    exact ⟨rfl, rfl, rfl, rfl, rfl, [], by simp, by simp, by simp⟩
  | cons m rest ih =>
    intro lit db db' h
    simp only [insertMeanings] at h
    cases hml : m.m_lang with
    | some lang =>
      simp only [hml] at h
      obtain ⟨h1, h2, h3, h4, h5, rows, hrows, hprop, hmap⟩ := ih lit db db' h
      refine ⟨h1, h2, h3, h4, h5, rows, hrows, hprop, ?_⟩
      rw [List.filter_cons]
      simp [hml, hmap]
    | none =>
      simp only [hml] at h
      cases hins : insertMeaning db lit m.text with
      | error e => simp only [hins] at h; exact absurd h (by simp)
      | ok db1 =>
        simp only [hins] at h
        obtain ⟨s, t, hlit, htxt, hdb1⟩ := insertMeaning_ok_shape hins
        obtain ⟨h1, h2, h3, h4, h5, rows, hrows, hprop, hmap⟩ := ih lit db1 db' h
        subst hdb1
        refine ⟨h1, h2, h3, h4, h5, ⟨s, t⟩ :: rows, ?_, ?_, ?_⟩
        · rw [hrows]; simp
        · intro row hrow
          rcases List.mem_cons.mp hrow with hr | hr
          · subst hr; exact hlit
          · exact hprop row hr
        · rw [List.filter_cons]
          simp [hml, htxt, hmap]

theorem insertMetadata_ok_shape {db db' : DB} {k v : String}
    (h : insertMetadata db k v = .ok db') :
    db' = { db with dictionary_metadata := db.dictionary_metadata ++ [(k, v)] } := by
  by_cases hk : db.dictionary_metadata.any (fun p => p.1 == k) = true
  · simp [insertMetadata, hk] at h
  · simp only [insertMetadata, if_neg hk, Except.ok.injEq] at h
    exact h.symm

theorem processCharacter_ok_cases {db db' : DB} {c : Character}
    (h : processCharacter db c = .ok db') :
    db'.dictionary_metadata = db.dictionary_metadata ∧
    db'.room_table_modification_log = db.room_table_modification_log ∧
    db'.room_master_table = db.room_master_table ∧
    ((c.literal = none ∧ db' = db) ∨
      ∃ s g sc f j rrows mrows,
        c.literal = some (some s) ∧
        db.kanji.any (fun r => r.literal == s) = false ∧
        db'.kanji = db.kanji ++ [⟨s, g, sc, f, j⟩] ∧
        db'.readings = db.readings ++ rrows ∧
        db'.meanings = db.meanings ++ mrows ∧
        (∀ row ∈ rrows, row.literal = s ∧
          (row.readingType = "ja_on" ∨ row.readingType = "ja_kun")) ∧
        (∀ row ∈ mrows, row.literal = s)) := by
  unfold processCharacter at h
  cases hl : c.literal with
  | none =>
    simp only [hl, Except.ok.injEq] at h
    subst h
    exact ⟨rfl, rfl, rfl, Or.inl ⟨rfl, rfl⟩⟩
  | some litText =>
    simp only [hl] at h
    cases hpm : parseMisc c.misc with
    | error e => simp only [hpm] at h; exact absurd h (by simp)
    | ok v =>
      obtain ⟨g, sc, f, j⟩ := v
      simp only [hpm] at h
      cases hk : insertKanji db litText g sc f j with
      | error e => simp only [hk] at h; exact absurd h (by simp)
      | ok db1 =>
        simp only [hk] at h
        obtain ⟨s, hlit, hany, hdb1⟩ := insertKanji_ok_shape hk
        subst hlit
        cases hrm : rmgroupOf c with
        | none =>
          simp only [hrm, Except.ok.injEq] at h
          subst h
          subst hdb1
          exact ⟨rfl, rfl, rfl, Or.inr ⟨s, g, sc, f, j, [], [], rfl, hany,
            by simp, by simp, by simp, by simp, by simp⟩⟩
        | some grp =>
          simp only [hrm] at h
          cases hir : insertReadings (some s) db1 grp.readings with
          | error e => simp only [hir] at h; exact absurd h (by simp)
          | ok db2 =>
            simp only [hir] at h
            obtain ⟨r1, r2, r3, r4, r5, rrows, hrrows, hrprop⟩ :=
              insertReadings_ok_shape grp.readings _ db1 db2 hir
            obtain ⟨m1, m2, m3, m4, m5, mrows, hmrows, hmprop, _⟩ :=
              insertMeanings_ok_shape grp.meanings _ db2 db' h
            subst hdb1
            refine ⟨by rw [m3, r3], by rw [m4, r4], by rw [m5, r5],
              Or.inr ⟨s, g, sc, f, j, rrows, mrows, rfl, hany, ?_, ?_, ?_, ?_, ?_⟩⟩
            · rw [m1, r1]
            · rw [m2, hrrows]
            · rw [hmrows, r2]
            · intro row hrow
              obtain ⟨ha, hty⟩ := hrprop row hrow
              exact ⟨(Option.some.inj ha).symm, hty⟩
            · intro row hrow
              exact (Option.some.inj (hmprop row hrow)).symm

theorem processCharacter_meanings_map {db db' : DB} {c : Character}
    (h : processCharacter db c = .ok db') :
    db'.meanings.map (fun row => some row.meaning) =
      db.meanings.map (fun row => some row.meaning) ++ charKeptMeaningTexts c := by
  unfold processCharacter at h
  cases hl : c.literal with
  | none =>
    simp only [hl, Except.ok.injEq] at h
    subst h
    simp [charKeptMeaningTexts, hl]
  | some litText =>
    simp only [hl] at h
    cases hpm : parseMisc c.misc with
    | error e => simp only [hpm] at h; exact absurd h (by simp)
    | ok v =>
      obtain ⟨g, sc, f, j⟩ := v
      simp only [hpm] at h
      cases hk : insertKanji db litText g sc f j with
      | error e => simp only [hk] at h; exact absurd h (by simp)
      | ok db1 =>
        simp only [hk] at h
        obtain ⟨s, hlit, _, hdb1⟩ := insertKanji_ok_shape hk
        cases hrm : rmgroupOf c with
        | none =>
          simp only [hrm, Except.ok.injEq] at h
          subst h
          subst hdb1
          simp [charKeptMeaningTexts, hl, hrm]
        | some grp =>
          simp only [hrm] at h
          cases hir : insertReadings litText db1 grp.readings with
          | error e => simp only [hir] at h; exact absurd h (by simp)
          | ok db2 =>
            simp only [hir] at h
            obtain ⟨_, r2, _, _, _, _, _, _⟩ :=
              insertReadings_ok_shape grp.readings _ db1 db2 hir
            obtain ⟨_, _, _, _, _, mrows, hmrows, _, hmap⟩ :=
              insertMeanings_ok_shape grp.meanings _ db2 db' h
            subst hdb1
            rw [hmrows, List.map_append, r2, ← hmap]
            simp [charKeptMeaningTexts, hl, hrm]

theorem parseMiscField_ok_cases {fo : Option (Option String)} {v : Option Int}
    (h : parseMiscField fo = .ok v) :
    (fo = none → v = none) ∧
    (∀ t, fo = some t → ∃ n, pyInt t = .ok n ∧ v = some n) := by
  cases fo with
  | none =>
    simp only [parseMiscField, Except.ok.injEq] at h
    exact ⟨fun _ => h.symm, by simp⟩
  | some t =>
    refine ⟨by simp, ?_⟩
    intro t' ht'
    obtain rfl : t = t' := Option.some.inj ht'
    cases hp : pyInt t with
    | ok n =>
      simp only [parseMiscField, hp, Except.ok.injEq] at h
      exact ⟨n, rfl, h.symm⟩
    | error e => simp [parseMiscField, hp] at h

theorem parseMisc_ok_fields {m : MiscElem} {g sc f j : Option Int}
    (h : parseMisc (some m) = .ok (g, sc, f, j)) :
    parseMiscField m.grade = .ok g ∧ parseMiscField m.stroke_count = .ok sc ∧
    parseMiscField m.freq = .ok f ∧ parseMiscField m.jlpt = .ok j := by
  unfold parseMisc at h
  cases h1 : parseMiscField m.grade with
  | error e => simp only [h1] at h; exact absurd h (by simp)
  | ok g' =>
    simp only [h1] at h
    cases h2 : parseMiscField m.stroke_count with
    | error e => simp only [h2] at h; exact absurd h (by simp)
    | ok sc' =>
      simp only [h2] at h
      cases h3 : parseMiscField m.freq with
      | error e => simp only [h3] at h; exact absurd h (by simp)
      | ok f' =>
        simp only [h3] at h
        cases h4 : parseMiscField m.jlpt with
        | error e => simp only [h4] at h; exact absurd h (by simp)
        | ok j' =>
          simp only [h4, Except.ok.injEq, Prod.mk.injEq] at h
          obtain ⟨hg, hsc, hf, hj⟩ := h
          subst hg; subst hsc; subst hf; subst hj
          exact ⟨rfl, rfl, rfl, rfl⟩

theorem extractChars_ok_cons {db db' : DB} {c : Character} {rest : List Character}
    (h : extractChars db (c :: rest) = .ok db') :
    ∃ db1, processCharacter db c = .ok db1 ∧ extractChars db1 rest = .ok db' := by
  simp only [extractChars] at h
  cases hc : processCharacter db c with
  | error e => simp only [hc] at h; exact absurd h (by simp)
  | ok db1 => simp only [hc] at h; exact ⟨db1, rfl, h⟩

theorem extract_frames (chars : List Character) :
    ∀ db db', extractChars db chars = .ok db' →
      db'.dictionary_metadata = db.dictionary_metadata ∧
      db'.room_table_modification_log = db.room_table_modification_log ∧
      db'.room_master_table = db.room_master_table := by
  induction chars with
  | nil =>
    intro db db' h
    simp only [extractChars, Except.ok.injEq] at h
    subst h
    exact ⟨rfl, rfl, rfl⟩
  | cons c rest ih =>
    intro db db' h
    obtain ⟨db1, hc, hrest⟩ := extractChars_ok_cons h
    obtain ⟨f1, f2, f3, _⟩ := processCharacter_ok_cases hc
    obtain ⟨g1, g2, g3⟩ := ih db1 db' hrest
    exact ⟨g1.trans f1, g2.trans f2, g3.trans f3⟩

theorem extract_kanji_map (chars : List Character) :
    ∀ db db', extractChars db chars = .ok db' →
      db'.kanji.map (fun r => r.literal) =
        db.kanji.map (fun r => r.literal) ++ chars.flatMap charLit := by
  induction chars with
  | nil =>
    intro db db' h
    simp only [extractChars, Except.ok.injEq] at h
    subst h
    simp
  | cons c rest ih =>
    intro db db' h
    obtain ⟨db1, hc, hrest⟩ := extractChars_ok_cons h
    have hmap := ih db1 db' hrest
    obtain ⟨_, _, _, hcase⟩ := processCharacter_ok_cases hc
    rcases hcase with ⟨hl, rfl⟩ | ⟨s, g, sc, f, j, rrows, mrows, hl, _, hk, _, _, _, _⟩
    · rw [hmap]
      simp [charLit, hl]
    · rw [hmap, hk]
      simp [charLit, hl]

theorem extract_literal_isSome (chars : List Character) :
    ∀ db db', extractChars db chars = .ok db' →
      ∀ c ∈ chars, ∀ l, c.literal = some l → l.isSome = true := by
  induction chars with
  | nil =>
    intro db db' _ c hc
    exact absurd hc (by simp)
  | cons c0 rest ih =>
    intro db db' h c hc l hl
    obtain ⟨db1, hc0, hrest⟩ := extractChars_ok_cons h
    rcases List.mem_cons.mp hc with rfl | hmem
    · obtain ⟨_, _, _, hcase⟩ := processCharacter_ok_cases hc0
      rcases hcase with ⟨hnone, _⟩ | ⟨s, _, _, _, _, _, _, hsome, _⟩
      · rw [hl] at hnone
        exact absurd hnone (by simp)
      · rw [hl] at hsome
        obtain rfl : l = some s := Option.some.inj hsome
        rfl
    · exact ih db1 db' hrest c hmem l hl

theorem not_mem_map_of_any_false {rows : List KanjiRow} {s : String}
    (h : rows.any (fun r => r.literal == s) = false) :
    s ∉ rows.map (fun r => r.literal) := by
  intro hs
  obtain ⟨r, hr, hrs⟩ := List.mem_map.mp hs
  have hx : rows.any (fun q => q.literal == s) = true :=
    List.any_eq_true.mpr ⟨r, hr, by simp [hrs]⟩
  rw [h] at hx
  exact absurd hx (by simp)

theorem extract_nodup (chars : List Character) :
    ∀ db db', extractChars db chars = .ok db' →
      (db.kanji.map (fun r => r.literal)).Nodup →
      (db'.kanji.map (fun r => r.literal)).Nodup := by
  induction chars with
  | nil =>
    intro db db' h hd
    simp only [extractChars, Except.ok.injEq] at h
    subst h
    exact hd
  | cons c rest ih =>
    intro db db' h hd
    obtain ⟨db1, hc, hrest⟩ := extractChars_ok_cons h
    obtain ⟨_, _, _, hcase⟩ := processCharacter_ok_cases hc
    rcases hcase with ⟨_, rfl⟩ | ⟨s, g, sc, f, j, _, _, _, hany, hk, _⟩
    · exact ih db1 db' hrest hd
    · apply ih db1 db' hrest
      rw [hk, List.map_append]
      apply List.Nodup.append hd (by simp)
      intro a ha hb
      obtain rfl : a = s := by simpa using hb
      exact not_mem_map_of_any_false hany ha

theorem processCharacter_refok {db db' : DB} {c : Character}
    (hc : processCharacter db c = .ok db') (h : RefOK db) : RefOK db' := by
  obtain ⟨_, _, _, hcase⟩ := processCharacter_ok_cases hc
  rcases hcase with ⟨_, rfl⟩ | ⟨s, g, sc, f, j, rrows, mrows, _, _, hk, hr, hm, hrp, hmp⟩
  · exact h
  · constructor
    · intro row hrow
      rw [hr] at hrow
      rw [hk, List.map_append]
      rcases List.mem_append.mp hrow with hold | hnew
      · exact List.mem_append_left _ (h.1 row hold)
      · apply List.mem_append_right
        simp [(hrp row hnew).1]
    · intro row hrow
      rw [hm] at hrow
      rw [hk, List.map_append]
      rcases List.mem_append.mp hrow with hold | hnew
      · exact List.mem_append_left _ (h.2 row hold)
      · apply List.mem_append_right
        simp [hmp row hnew]

theorem extract_refok (chars : List Character) :
    ∀ db db', extractChars db chars = .ok db' → RefOK db → RefOK db' := by
  induction chars with
  | nil =>
    intro db db' h hp
    simp only [extractChars, Except.ok.injEq] at h
    subst h
    exact hp
  | cons c rest ih =>
    intro db db' h hp
    obtain ⟨db1, hc, hrest⟩ := extractChars_ok_cons h
    exact ih db1 db' hrest (processCharacter_refok hc hp)

theorem initDB_refok : RefOK initDB := by
  constructor <;> intro row hrow <;>
    simp [initDB, createSchemaRows, connectDb, removeDbFile] at hrow

theorem extract_meanings_map (chars : List Character) :
    ∀ db db', extractChars db chars = .ok db' →
      db'.meanings.map (fun row => some row.meaning) =
        db.meanings.map (fun row => some row.meaning) ++
          chars.flatMap charKeptMeaningTexts := by
  induction chars with
  | nil =>
    intro db db' h
    simp only [extractChars, Except.ok.injEq] at h
    subst h
    simp
  | cons c rest ih =>
    intro db db' h
    obtain ⟨db1, hc, hrest⟩ := extractChars_ok_cons h
    rw [ih db1 db' hrest, processCharacter_meanings_map hc]
    simp

theorem extract_reading_types (chars : List Character) :
    ∀ db db', extractChars db chars = .ok db' →
      ∀ row ∈ db'.readings, row ∈ db.readings ∨
        row.readingType = "ja_on" ∨ row.readingType = "ja_kun" := by
  induction chars with
  | nil =>
    intro db db' h
    simp only [extractChars, Except.ok.injEq] at h
    subst h
    exact fun row hr => Or.inl hr
  | cons c rest ih =>
    intro db db' h row hrow
    obtain ⟨db1, hc, hrest⟩ := extractChars_ok_cons h
    rcases ih db1 db' hrest row hrow with h1 | h2
    · obtain ⟨_, _, _, hcase⟩ := processCharacter_ok_cases hc
      rcases hcase with ⟨_, rfl⟩ | ⟨s, g, sc, f, j, rrows, mrows, _, _, _, hr, _, hrp, _⟩
      · exact Or.inl h1
      · rw [hr] at h1
        rcases List.mem_append.mp h1 with hold | hnew
        · exact Or.inl hold
        · exact Or.inr (hrp row hnew).2
    · exact Or.inr h2

theorem extractChars_append (l1 l2 : List Character) :
    ∀ db, extractChars db (l1 ++ l2) =
      match extractChars db l1 with
      | .ok db1 => extractChars db1 l2
      | .error e => .error e := by
  induction l1 with
  | nil => intro db; simp [extractChars]
  | cons c rest ih =>
    intro db
    cases hc : processCharacter db c with
    | error e => simp [extractChars, hc]
    | ok db1 => simp [extractChars, hc, ih db1]

theorem generateDatabase_ok_shape {doc : List Character} {db : DB}
    (h : generateDatabase doc = .ok db) :
    ∃ db1, extractChars initDB doc = .ok db1 ∧
      db.kanji = db1.kanji ∧ db.readings = db1.readings ∧ db.meanings = db1.meanings ∧
      db.room_table_modification_log = db1.room_table_modification_log ∧
      db.room_master_table = db1.room_master_table ∧
      db.dictionary_metadata = db1.dictionary_metadata ++
        [("kanjidic2_version", "2025-01"), ("dictionary_initialized", "true")] := by
  unfold generateDatabase generateDatabaseFrom at h
  cases hx : extractChars initDB doc with
  | error e => simp only [hx] at h; exact absurd h (by simp)
  | ok db1 =>
    simp only [hx] at h
    cases hm1 : insertMetadata db1 "kanjidic2_version" "2025-01" with
    | error e => simp only [hm1] at h; exact absurd h (by simp)
    | ok db2 =>
      simp only [hm1] at h
      have e2 := insertMetadata_ok_shape h
      have e1 := insertMetadata_ok_shape hm1
      subst e2
      subst e1
      exact ⟨db1, rfl, rfl, rfl, rfl, rfl, rfl, by simp⟩

theorem filter_length_eq_count (rows : List KanjiRow) (s : String) :
    (rows.filter (fun r => r.literal == s)).length =
      (rows.map (fun r => r.literal)).count s := by
  induction rows with
  | nil => simp
  | cons r rest ih =>
    by_cases hr : r.literal = s
    · simp [List.filter_cons, List.count_cons, hr, ih]
    · simp [List.filter_cons, List.count_cons, hr, ih]

theorem flatMap_charLit_length (chars : List Character)
    (h : ∀ c ∈ chars, ∀ l, c.literal = some l → l.isSome = true) :
    (chars.flatMap charLit).length =
      (chars.filter (fun c => c.literal.isSome)).length := by
  induction chars with
  | nil => simp
  | cons c rest ih =>
    have hrest : ∀ c' ∈ rest, ∀ l, c'.literal = some l → l.isSome = true :=
      fun c' hc' => h c' (List.mem_cons_of_mem _ hc')
    cases hc : c.literal with
    | none => simp [List.filter_cons, charLit, hc, ih hrest]
    | some l =>
      have hls : l.isSome = true := h c (List.mem_cons_self _ _) l hc
      obtain ⟨s, rfl⟩ := Option.isSome_iff_exists.mp hls
      simp [List.filter_cons, charLit, hc, ih hrest]

theorem miscField_stored {fo : Option (Option String)} {v : Option Int}
    (h : parseMiscField fo = .ok v) :
    (fo = none → v = none) ∧ (∀ t n, fo = some t → pyInt t = .ok n → v = some n) := by
  obtain ⟨h1, h2⟩ := parseMiscField_ok_cases h
  refine ⟨h1, ?_⟩
  intro t n ht hn
  obtain ⟨n', hn', hv⟩ := h2 t ht
  rw [hn] at hn'
  obtain rfl : n = n' := Except.ok.inj hn'
  exact hv

theorem insertReading_error_shape {db : DB} {lit : Option String} {rt : String}
    {txt : Option String} {e : PyError} (h : insertReading db lit rt txt = .error e) :
    e = .notNullViolation := by
  cases lit with
  | none =>
    cases txt <;> simp only [insertReading, Except.error.injEq] at h <;> exact h.symm
  | some s =>
    cases txt with
    | none => simp only [insertReading, Except.error.injEq] at h; exact h.symm
    | some t => simp [insertReading] at h

theorem insertMeaning_error_shape {db : DB} {lit : Option String}
    {txt : Option String} {e : PyError} (h : insertMeaning db lit txt = .error e) :
    e = .notNullViolation := by
  cases lit with
  | none =>
    cases txt <;> simp only [insertMeaning, Except.error.injEq] at h <;> exact h.symm
  | some s =>
    cases txt with
    | none => simp only [insertMeaning, Except.error.injEq] at h; exact h.symm
    | some t => simp [insertMeaning] at h

theorem insertReadings_error_is_notNull (rs : List ReadingElem) :
    ∀ (lit : Option String) (db : DB) (e : PyError),
      insertReadings lit db rs = .error e → e = .notNullViolation := by
  induction rs with
  | nil => intro lit db e h; simp [insertReadings] at h
  | cons r rest ih =>
    intro lit db e h
    simp only [insertReadings] at h
    cases hrt : r.r_type with
    | none => simp only [hrt] at h; exact ih lit db e h
    | some rt =>
      simp only [hrt] at h
      by_cases hb : (rt == "ja_on" || rt == "ja_kun") = true
      · rw [if_pos hb] at h
        cases hins : insertReading db lit rt r.text with
        | error e2 =>
          simp only [hins, Except.error.injEq] at h
          subst h
          exact insertReading_error_shape hins
        | ok db1 => simp only [hins] at h; exact ih lit db1 e h
      · rw [if_neg hb] at h; exact ih lit db e h

theorem insertMeanings_error_is_notNull (ms : List MeaningElem) :
    ∀ (lit : Option String) (db : DB) (e : PyError),
      insertMeanings lit db ms = .error e → e = .notNullViolation := by
  induction ms with
  | nil => intro lit db e h; simp [insertMeanings] at h
  | cons m rest ih =>
    intro lit db e h
    simp only [insertMeanings] at h
    cases hml : m.m_lang with
    | some lang => simp only [hml] at h; exact ih lit db e h
    | none =>
      simp only [hml] at h
      cases hins : insertMeaning db lit m.text with
      | error e2 =>
        simp only [hins, Except.error.injEq] at h
        subst h
        exact insertMeaning_error_shape hins
      | ok db1 => simp only [hins] at h; exact ih lit db1 e h

theorem insertReadings_ok_texts (rs : List ReadingElem) :
    ∀ (lit : Option String) (db db' : DB), insertReadings lit db rs = .ok db' →
      ∀ r ∈ rs, isKeptReading r = true → r.text.isSome = true := by
  induction rs with
  | nil => intro lit db db' _ r hr; exact absurd hr (by simp)
  | cons r0 rest ih =>
    intro lit db db' h r hr hkept
    simp only [insertReadings] at h
    cases hrt : r0.r_type with
    | none =>
      simp only [hrt] at h
      rcases List.mem_cons.mp hr with rfl | hmem
      · simp [isKeptReading, hrt] at hkept
      · exact ih lit db db' h r hmem hkept
    | some rt =>
      simp only [hrt] at h
      by_cases hb : (rt == "ja_on" || rt == "ja_kun") = true
      · rw [if_pos hb] at h
        cases hins : insertReading db lit rt r0.text with
        | error e => simp only [hins] at h; exact absurd h (by simp)
        | ok db1 =>
          simp only [hins] at h
          rcases List.mem_cons.mp hr with rfl | hmem
          · obtain ⟨s, t, -, htxt, -⟩ := insertReading_ok_shape hins
            rw [htxt]; rfl
          · exact ih lit db1 db' h r hmem hkept
      · rw [if_neg hb] at h
        rcases List.mem_cons.mp hr with rfl | hmem
        · simp only [isKeptReading, hrt] at hkept
          exact absurd hkept hb
        · exact ih lit db db' h r hmem hkept

theorem insertMeanings_ok_texts (ms : List MeaningElem) :
    ∀ (lit : Option String) (db db' : DB), insertMeanings lit db ms = .ok db' →
      ∀ m ∈ ms, m.m_lang = none → m.text.isSome = true := by
  induction ms with
  | nil => intro lit db db' _ m hm; exact absurd hm (by simp)
  | cons m0 rest ih =>
    intro lit db db' h m hm hml
    simp only [insertMeanings] at h
    cases hml0 : m0.m_lang with
    | some lang =>
      simp only [hml0] at h
      rcases List.mem_cons.mp hm with rfl | hmem
      · rw [hml] at hml0; exact absurd hml0 (by simp)
      · exact ih lit db db' h m hmem hml
    | none =>
      simp only [hml0] at h
      cases hins : insertMeaning db lit m0.text with
      | error e => simp only [hins] at h; exact absurd h (by simp)
      | ok db1 =>
        simp only [hins] at h
        rcases List.mem_cons.mp hm with rfl | hmem
        · obtain ⟨s, t, -, htxt, -⟩ := insertMeaning_ok_shape hins
          rw [htxt]; rfl
        · exact ih lit db1 db' h m hmem hml

/-- C1: after a completed run, the kanji table has exactly one row per
top-level character entry possessing a literal element, keyed by that
entry's literal text (which a completed run forces to be non-null); an
entry lacking a literal element is skipped outright and contributes no row
to any table. -/
theorem C1_kanji_row_per_literal_entry (doc : List Character) (db : DB)
    (h : generateDatabase doc = .ok db) :
    db.kanji.length = (doc.filter (fun c => c.literal.isSome)).length ∧
    (∀ c ∈ doc, ∀ s, c.literal = some (some s) →
      (db.kanji.filter (fun r => r.literal == s)).length = 1) ∧
    (∀ c ∈ doc, ∀ l, c.literal = some l → l.isSome = true) ∧
    (∀ (db0 : DB) (c : Character), c.literal = none →
      processCharacter db0 c = .ok db0) := by
  obtain ⟨db1, hx, hk, -, -, -, -, -⟩ := generateDatabase_ok_shape h
  have hmap := extract_kanji_map doc initDB db1 hx
  have hsome := extract_literal_isSome doc initDB db1 hx
  have hnd : (db1.kanji.map (fun r => r.literal)).Nodup := by
    apply extract_nodup doc initDB db1 hx
    simp [initDB, createSchemaRows, connectDb, removeDbFile]
  have hinit : initDB.kanji.map (fun r => r.literal) = [] := by
    simp [initDB, createSchemaRows, connectDb, removeDbFile]
  rw [hinit, List.nil_append] at hmap
  refine ⟨?_, ?_, hsome, ?_⟩
  · have hlen : db.kanji.length = (db1.kanji.map (fun r => r.literal)).length := by
      rw [hk]; simp
    rw [hlen, hmap, flatMap_charLit_length doc hsome]
  · intro c hc s hs
    have hmem : s ∈ db1.kanji.map (fun r => r.literal) := by
      rw [hmap]
      exact List.mem_flatMap.mpr ⟨c, hc, by simp [charLit, hs]⟩
    rw [hk, filter_length_eq_count]
    exact List.count_eq_one_of_mem hnd hmem
  · intro db0 c hcl
    unfold processCharacter
    simp [hcl]

/-- C1 witness: on the single-entry 水 document, the kanji table has as many
rows as there are literal-possessing entries, and exactly one row is keyed
by 水. -/
theorem C1_kanji_row_per_literal_entry_witness :
    mizuDB.kanji.length = ([mizuChar].filter (fun c => c.literal.isSome)).length ∧
    (mizuDB.kanji.filter (fun r => r.literal == "水")).length = 1 := by
  have h := C1_kanji_row_per_literal_entry [mizuChar] mizuDB (by decide)
  exact ⟨h.1, h.2.1 mizuChar (by decide) "水" rfl⟩

/-- C2: the end-to-end 水 scenario. The entry with literal 水, misc grade=1,
stroke_count=4, freq=1915, jlpt=7, readings (ja_on, スイ) and (ja_kun, みず),
an unqualified meaning "water" and an m_lang="fr" meaning "eau" produces
exactly one kanji row (水,1,4,1915,7), exactly the two readings rows
(水,ja_on,スイ) and (水,ja_kun,みず), and exactly one meanings row (水,water);
the French meaning produces no row. -/
theorem C2_mizu_scenario :
    generateDatabase [mizuChar] = .ok
      { kanji := [⟨"水", some 1, some 4, some 1915, some 7⟩],
        readings := [⟨"水", "ja_on", "スイ"⟩, ⟨"水", "ja_kun", "みず"⟩],
        meanings := [⟨"水", "water"⟩],
        dictionary_metadata := [("kanjidic2_version", "2025-01"),
                                ("dictionary_initialized", "true")],
        room_table_modification_log := [(0, 0), (1, 0), (2, 0), (3, 0), (4, 0)],
        room_master_table := [(42, "PLACEHOLDER_HASH")] } := by
  decide

/-- C3: after any completed run every readings row's readingType is ja_on or
ja_kun, and a reading element whose type attribute is anything else is a
no-op in the readings loop — it produces no row in any table and no error. -/
theorem C3_reading_type_filter (doc : List Character) (db db0 : DB)
    (lit : Option String) (r : ReadingElem) (rest : List ReadingElem) :
    (generateDatabase doc = .ok db →
      ∀ row ∈ db.readings, row.readingType = "ja_on" ∨ row.readingType = "ja_kun") ∧
    (isKeptReading r = false →
      insertReadings lit db0 (r :: rest) = insertReadings lit db0 rest) := by
  constructor
  · intro h row hrow
    obtain ⟨db1, hx, -, hr, -, -, -, -⟩ := generateDatabase_ok_shape h
    rw [hr] at hrow
    rcases extract_reading_types doc initDB db1 hx row hrow with h0 | h1
    · exact absurd h0 (by simp [initDB, createSchemaRows, connectDb, removeDbFile])
    · exact h1
  · intro hkept
    simp only [insertReadings]
    cases hrt : r.r_type with
    | none => rfl
    | some rt =>
      simp only [isKeptReading, hrt] at hkept
      simp only [hrt]
      rw [if_neg (by simp [hkept])]

/-- C3 witness: a readings row of the 水 run has a recognized type, and an
element typed ja_kana inserts nothing. -/
theorem C3_reading_type_filter_witness :
    ((ReadingRow.mk "水" "ja_on" "スイ").readingType = "ja_on" ∨
     (ReadingRow.mk "水" "ja_on" "スイ").readingType = "ja_kun") ∧
    insertReadings (some "水") initDB [oddReading] =
      insertReadings (some "水") initDB [] := by
  constructor
  · exact (C3_reading_type_filter [mizuChar] mizuDB initDB (some "水")
      oddReading []).1 (by decide) ⟨"水", "ja_on", "スイ"⟩ (by decide)
  · exact (C3_reading_type_filter [mizuChar] mizuDB initDB (some "水")
      oddReading []).2 (by decide)

/-- C4: a meaning element carrying an m_lang attribute is a no-op in the
meanings loop (no row in any table), and after any completed run the
meanings rows are exactly, in order, the texts of the language-unqualified
meaning elements of the processed (literal-possessing) entries. -/
theorem C4_meaning_language_filter (doc : List Character) (db db0 : DB)
    (lit : Option String) (m : MeaningElem) (rest : List MeaningElem) (lang : String) :
    (m.m_lang = some lang →
      insertMeanings lit db0 (m :: rest) = insertMeanings lit db0 rest) ∧
    (generateDatabase doc = .ok db →
      db.meanings.map (fun row => some row.meaning) =
        doc.flatMap charKeptMeaningTexts) := by
  constructor
  · intro hml
    simp only [insertMeanings, hml]
  · intro h
    obtain ⟨db1, hx, -, -, hm, -, -, -⟩ := generateDatabase_ok_shape h
    have hmm := extract_meanings_map doc initDB db1 hx
    rw [hm, hmm]
    simp [initDB, createSchemaRows, connectDb, removeDbFile]

/-- C4 witness: the m_lang="fr" element inserts nothing, and the 水 run's
meanings rows are exactly the unqualified meaning texts. -/
theorem C4_meaning_language_filter_witness :
    insertMeanings (some "水") initDB [frMeaning] =
      insertMeanings (some "水") initDB [] ∧
    mizuDB.meanings.map (fun row => some row.meaning) =
      [mizuChar].flatMap charKeptMeaningTexts := by
  constructor
  · exact (C4_meaning_language_filter [mizuChar] mizuDB initDB (some "水")
      frMeaning [] "fr").1 rfl
  · exact (C4_meaning_language_filter [mizuChar] mizuDB initDB (some "水")
      frMeaning [] "fr").2 (by decide)

/-- C5: referential integrity by write order. Every intermediate state of
the extraction pass is `extractChars initDB pfx` for some prefix `pfx` of
the document, and `chars` here ranges over arbitrary lists, so the first
conjunct covers every such point; the second covers the final database; the
third shows each character step preserves the invariant (the kanji row is
appended before the entry's readings/meanings rows). -/
theorem C5_kanji_before_children (chars : List Character) (db db0 db1 : DB)
    (c : Character) :
    (extractChars initDB chars = .ok db → RefOK db) ∧
    (generateDatabase chars = .ok db → RefOK db) ∧
    (RefOK db0 → processCharacter db0 c = .ok db1 → RefOK db1) := by
  refine ⟨fun h => extract_refok chars initDB db h initDB_refok, ?_,
    fun h1 h2 => processCharacter_refok h2 h1⟩
  intro h
  obtain ⟨dbx, hx, hk, hr, hm, -, -, -⟩ := generateDatabase_ok_shape h
  have hok := extract_refok chars initDB dbx hx initDB_refok
  constructor
  · intro row hrow
    rw [hr] at hrow
    rw [hk]
    exact hok.1 row hrow
  · intro row hrow
    rw [hm] at hrow
    rw [hk]
    exact hok.2 row hrow

/-- C5 witness: the completed 水 run satisfies referential integrity. -/
theorem C5_kanji_before_children_witness : RefOK mizuDB :=
  (C5_kanji_before_children [mizuChar] mizuDB initDB initDB mizuChar).2.1 (by decide)

/-- C6: independent of the input, a completed run leaves exactly the five
change-log rows (ids 0-4, invalidated flag 0) and the single identity row
with fixed id 42 and the fixed placeholder string (not a computed hash). -/
theorem C6_framework_tables (doc : List Character) (db : DB)
    (h : generateDatabase doc = .ok db) :
    db.room_table_modification_log = [(0, 0), (1, 0), (2, 0), (3, 0), (4, 0)] ∧
    db.room_master_table = [(42, "PLACEHOLDER_HASH")] := by
  obtain ⟨db1, hx, -, -, -, hlog, hmaster, -⟩ := generateDatabase_ok_shape h
  obtain ⟨-, hlog1, hmaster1⟩ := extract_frames doc initDB db1 hx
  constructor
  · rw [hlog, hlog1]; rfl
  · rw [hmaster, hmaster1]; rfl

/-- C6 witness: the bookkeeping rows of a run on the empty document. -/
theorem C6_framework_tables_witness :
    emptyRunDB.room_table_modification_log = [(0, 0), (1, 0), (2, 0), (3, 0), (4, 0)] ∧
    emptyRunDB.room_master_table = [(42, "PLACEHOLDER_HASH")] :=
  C6_framework_tables [] emptyRunDB (by decide)

/-- C7: a run's result is a function of the parsed input alone — whatever
file previously sat at the output path is deleted before the rebuild — so a
second run on the same input (in particular, one starting from the first
run's own output file) reproduces identical row content. -/
theorem C7_rerun_reproduces (doc : List Character) (prior prior2 : Option DB)
    (db : DB) :
    runTool prior doc = runTool prior2 doc ∧
    (runTool prior doc = .ok db → runTool (some db) doc = .ok db) :=
  ⟨rfl, fun h => h⟩

/-- C7 witness: rerunning on the 水 document over the first run's output
file reproduces the same database. -/
theorem C7_rerun_reproduces_witness :
    runTool (some mizuDB) [mizuChar] = .ok mizuDB :=
  (C7_rerun_reproduces [mizuChar] none (some mizuDB) mizuDB).2 (by decide)

/-- C8 counterexample: the claim quantifies over every entry whose misc
block holds a non-numeric field, but an entry whose literal element is
absent is skipped (line 112-113) before its misc block is ever parsed:
`noLitBadMisc` has a grade element whose text is not a valid integer, yet
the run completes without any error. -/
theorem C8_counterexample :
    pyInt (some "not a number") = .error .typeOrValueError ∧
    errored (generateDatabase [noLitBadMisc]) = false ∧
    noLitBadMisc.literal = none := by
  decide

/-- C8 (amended to entries possessing a literal element): for such an entry,
a present grade/stroke_count/freq/jlpt element whose text fails `int(...)`
makes the entry's processing — and any run whose document contains the
entry — terminate with an uncaught error; when parsing succeeds, the kanji
row stores each present field's parsed integer and NULL for each absent
field. -/
theorem C8_misc_integer_fields (c : Character) (l : Option String) (m : MiscElem)
    (hl : c.literal = some l) (hm : c.misc = some m) :
    (∀ (db : DB) (t : Option String) (e : PyError),
      (m.grade = some t ∨ m.stroke_count = some t ∨ m.freq = some t ∨
        m.jlpt = some t) →
      pyInt t = .error e → errored (processCharacter db c) = true) ∧
    (∀ (pre post : List Character) (t : Option String) (e : PyError),
      (m.grade = some t ∨ m.stroke_count = some t ∨ m.freq = some t ∨
        m.jlpt = some t) →
      pyInt t = .error e → errored (generateDatabase (pre ++ c :: post)) = true) ∧
    (∀ (db db' : DB) (g sc f j : Option Int) (s : String),
      parseMisc c.misc = .ok (g, sc, f, j) → c.literal = some (some s) →
      processCharacter db c = .ok db' →
      db'.kanji = db.kanji ++ [⟨s, g, sc, f, j⟩] ∧
      (m.grade = none → g = none) ∧
      (∀ t n, m.grade = some t → pyInt t = .ok n → g = some n) ∧
      (m.stroke_count = none → sc = none) ∧
      (∀ t n, m.stroke_count = some t → pyInt t = .ok n → sc = some n) ∧
      (m.freq = none → f = none) ∧
      (∀ t n, m.freq = some t → pyInt t = .ok n → f = some n) ∧
      (m.jlpt = none → j = none) ∧
      (∀ t n, m.jlpt = some t → pyInt t = .ok n → j = some n)) := by
  have key : ∀ (db : DB) (t : Option String) (e : PyError),
      (m.grade = some t ∨ m.stroke_count = some t ∨ m.freq = some t ∨
        m.jlpt = some t) →
      pyInt t = .error e → errored (processCharacter db c) = true := by
    intro db t e hfield hpi
    cases hpc : processCharacter db c with
    | error e2 => rfl
    | ok db' =>
      exfalso
      unfold processCharacter at hpc
      simp only [hl] at hpc
      cases hpm : parseMisc c.misc with
      | error e2 => simp only [hpm] at hpc; exact absurd hpc (by simp)
      | ok v =>
        obtain ⟨g, sc, f, j⟩ := v
        rw [hm] at hpm
        obtain ⟨hg, hsc, hf, hj⟩ := parseMisc_ok_fields hpm
        rcases hfield with hft | hft | hft | hft
        · obtain ⟨n, hn, -⟩ := (parseMiscField_ok_cases hg).2 t hft
          rw [hpi] at hn; exact absurd hn (by simp)
        · obtain ⟨n, hn, -⟩ := (parseMiscField_ok_cases hsc).2 t hft
          rw [hpi] at hn; exact absurd hn (by simp)
        · obtain ⟨n, hn, -⟩ := (parseMiscField_ok_cases hf).2 t hft
          rw [hpi] at hn; exact absurd hn (by simp)
        · obtain ⟨n, hn, -⟩ := (parseMiscField_ok_cases hj).2 t hft
          rw [hpi] at hn; exact absurd hn (by simp)
  refine ⟨key, ?_, ?_⟩
  · intro pre post t e hfield hpi
    unfold generateDatabase generateDatabaseFrom
    rw [extractChars_append pre (c :: post) initDB]
    cases hx : extractChars initDB pre with
    | error e2 => rfl
    | ok dbp =>
      simp only [extractChars]
      cases hpc : processCharacter dbp c with
      | ok dbq =>
        have hkey := key dbp t e hfield hpi
        rw [hpc] at hkey
        exact absurd hkey (by simp [errored])
      | error e3 => rfl
  · intro db db' g sc f j s hpm hls hpc
    unfold processCharacter at hpc
    simp only [hls] at hpc
    simp only [hpm] at hpc
    cases hk : insertKanji db (some s) g sc f j with
    | error e => simp only [hk] at hpc; exact absurd hpc (by simp)
    | ok db1 =>
      simp only [hk] at hpc
      obtain ⟨s', hs', hany, hdb1⟩ := insertKanji_ok_shape hk
      obtain rfl : s = s' := Option.some.inj hs'
      rw [hm] at hpm
      obtain ⟨hg, hsc, hf, hj⟩ := parseMisc_ok_fields hpm
      have hkanji : db'.kanji = db.kanji ++ [⟨s, g, sc, f, j⟩] := by
        cases hrm : rmgroupOf c with
        | none =>
          simp only [hrm, Except.ok.injEq] at hpc
          subst hpc
          rw [hdb1]
        | some grp =>
          simp only [hrm] at hpc
          cases hir : insertReadings (some s) db1 grp.readings with
          | error e => simp only [hir] at hpc; exact absurd hpc (by simp)
          | ok db2 =>
            simp only [hir] at hpc
            obtain ⟨r1, -, -, -, -, -, -, -⟩ :=
              insertReadings_ok_shape grp.readings _ db1 db2 hir
            obtain ⟨m1, -, -, -, -, -, -, -, -⟩ :=
              insertMeanings_ok_shape grp.meanings _ db2 db' hpc
            rw [m1, r1, hdb1]
      exact ⟨hkanji, (miscField_stored hg).1, (miscField_stored hg).2,
        (miscField_stored hsc).1, (miscField_stored hsc).2,
        (miscField_stored hf).1, (miscField_stored hf).2,
        (miscField_stored hj).1, (miscField_stored hj).2⟩

/-- C8 witness: the entry 火 with grade text "x" kills a whole run; the 水
entry's parsed misc fields are stored in its kanji row. -/
theorem C8_misc_integer_fields_witness :
    errored (generateDatabase [badMiscChar]) = true ∧
    mizuStepDB.kanji = initDB.kanji ++ [⟨"水", some 1, some 4, some 1915, some 7⟩] := by
  constructor
  · exact (C8_misc_integer_fields badMiscChar (some "火") _ rfl rfl).2.1
      [] [] (some "x") .typeOrValueError (Or.inl rfl) (by decide)
  · exact ((C8_misc_integer_fields mizuChar (some "水") _ rfl rfl).2.2
      initDB mizuStepDB (some 1) (some 4) (some 1915) (some 7) "水"
      (by decide) rfl (by decide)).1

/-- C9: with no argument the script prints usage and exits 1, and with a
path that does not name an existing file it prints an error and exits 1; in
both cases the exit happens before any output-file operation, so whatever
file sat at the output path is neither created nor deleted. -/
theorem C9_argument_checks (argv : List String) (fileOnDisk : String → Bool)
    (parseFile : String → List Character) (prior : Option DB) :
    (argv.length < 2 →
      mainScript argv fileOnDisk parseFile prior = (.usageExit, .untouched prior) ∧
      exitCode .usageExit ≠ 0) ∧
    (∀ prog path rest, argv = prog :: path :: rest → fileOnDisk path = false →
      mainScript argv fileOnDisk parseFile prior = (.notFoundExit, .untouched prior) ∧
      exitCode .notFoundExit ≠ 0) := by
  constructor
  · intro hlen
    cases argv with
    | nil => exact ⟨rfl, by decide⟩
    | cons a tail =>
      cases tail with
      | nil => exact ⟨rfl, by decide⟩
      | cons b t2 =>
        simp only [List.length_cons] at hlen
        omega
  · intro prog path rest harg hfs
    subst harg
    refine ⟨?_, by decide⟩
    simp [mainScript, hfs]

/-- C9 witness: the two early exits at concrete inputs. -/
theorem C9_argument_checks_witness :
    mainScript [] (fun _ => false) (fun _ => []) none =
      (.usageExit, .untouched none) ∧
    mainScript ["generate_database.py", "missing.xml"] (fun _ => false)
      (fun _ => []) none = (.notFoundExit, .untouched none) := by
  constructor
  · exact ((C9_argument_checks [] (fun _ => false) (fun _ => []) none).1
      (by decide)).1
  · exact ((C9_argument_checks ["generate_database.py", "missing.xml"]
      (fun _ => false) (fun _ => []) none).2 "generate_database.py"
      "missing.xml" [] rfl rfl).1

/-- C10: the NOT NULL columns reject missing text. An entry whose literal
element is present but empty aborts its processing (with the NOT NULL
constraint error once the misc fields parse); a kept reading or a kept
(language-unqualified) meaning element with no text aborts the entry's
processing with the NOT NULL constraint error; and conversely an entry that
processes successfully had non-null literal text and non-null text on every
kept reading and meaning element — such elements are neither skipped nor
stored as NULL. -/
theorem C10_not_null_columns (db : DB) (c : Character) :
    (c.literal = some none → errored (processCharacter db c) = true) ∧
    (∀ v, c.literal = some none → parseMisc c.misc = .ok v →
      processCharacter db c = .error .notNullViolation) ∧
    (∀ s grp v, c.literal = some (some s) → parseMisc c.misc = .ok v →
      db.kanji.any (fun r => r.literal == s) = false → rmgroupOf c = some grp →
      ((∃ r ∈ grp.readings, isKeptReading r = true ∧ r.text = none) ∨
       (∃ mm ∈ grp.meanings, mm.m_lang = none ∧ mm.text = none)) →
      processCharacter db c = .error .notNullViolation) ∧
    (∀ db', processCharacter db c = .ok db' →
      (∀ l, c.literal = some l → l.isSome = true) ∧
      (∀ grp l, c.literal = some l → rmgroupOf c = some grp →
        (∀ r ∈ grp.readings, isKeptReading r = true → r.text.isSome = true) ∧
        (∀ mm ∈ grp.meanings, mm.m_lang = none → mm.text.isSome = true))) := by
  refine ⟨?_, ?_, ?_, ?_⟩
  · intro hl
    cases hpc : processCharacter db c with
    | error e => rfl
    | ok db' =>
      exfalso
      obtain ⟨-, -, -, hcase⟩ := processCharacter_ok_cases hpc
      rcases hcase with ⟨h0, -⟩ | ⟨s, _, _, _, _, _, _, h0, -⟩
      · rw [hl] at h0; exact absurd h0 (by simp)
      · rw [hl] at h0; exact absurd h0 (by simp)
  · intro v hl hpm
    obtain ⟨g, sc, f, j⟩ := v
    unfold processCharacter
    simp only [hl, hpm]
    rfl
  · intro s grp v hls hpm hany hrm hex
    obtain ⟨g, sc, f, j⟩ := v
    unfold processCharacter
    simp only [hls, hpm]
    have hk : insertKanji db (some s) g sc f j =
        .ok { db with kanji := db.kanji ++ [⟨s, g, sc, f, j⟩] } := by
      simp [insertKanji, hany]
    simp only [hk, hrm]
    rcases hex with hexr | hexm
    · cases hres : insertReadings (some s)
          { db with kanji := db.kanji ++ [⟨s, g, sc, f, j⟩] } grp.readings with
      | error e =>
        simp only [hres]
        obtain rfl := insertReadings_error_is_notNull grp.readings _ _ e hres
        rfl
      | ok db2 =>
        exfalso
        obtain ⟨r0, hmem, hkept, htext⟩ := hexr
        have hs2 := insertReadings_ok_texts grp.readings _ _ db2 hres r0 hmem hkept
        rw [htext] at hs2
        exact absurd hs2 (by simp)
    · cases hres : insertReadings (some s)
          { db with kanji := db.kanji ++ [⟨s, g, sc, f, j⟩] } grp.readings with
      | error e =>
        simp only [hres]
        obtain rfl := insertReadings_error_is_notNull grp.readings _ _ e hres
        rfl
      | ok db2 =>
        simp only [hres]
        cases hmres : insertMeanings (some s) db2 grp.meanings with
        | error e =>
          obtain rfl := insertMeanings_error_is_notNull grp.meanings _ _ e hmres
          rfl
        | ok db3 =>
          exfalso
          obtain ⟨m0, hmem, hml, htext⟩ := hexm
          have hs2 := insertMeanings_ok_texts grp.meanings _ _ db3 hmres m0 hmem hml
          rw [htext] at hs2
          exact absurd hs2 (by simp)
  · intro db' hpc
    constructor
    · intro l hl2
      obtain ⟨-, -, -, hcase⟩ := processCharacter_ok_cases hpc
      rcases hcase with ⟨h0, -⟩ | ⟨s, _, _, _, _, _, _, h0, -⟩
      · rw [hl2] at h0; exact absurd h0 (by simp)
      · rw [hl2] at h0
        obtain rfl : l = some s := Option.some.inj h0
        rfl
    · intro grp l hl2 hrm
      unfold processCharacter at hpc
      simp only [hl2] at hpc
      cases hpm : parseMisc c.misc with
      | error e => simp only [hpm] at hpc; exact absurd hpc (by simp)
      | ok v =>
        obtain ⟨g, sc, f, j⟩ := v
        simp only [hpm] at hpc
        cases hk : insertKanji db l g sc f j with
        | error e => simp only [hk] at hpc; exact absurd hpc (by simp)
        | ok db1 =>
          simp only [hk, hrm] at hpc
          cases hir : insertReadings l db1 grp.readings with
          | error e => simp only [hir] at hpc; exact absurd hpc (by simp)
          | ok db2 =>
            simp only [hir] at hpc
            exact ⟨insertReadings_ok_texts grp.readings l db1 db2 hir,
              insertMeanings_ok_texts grp.meanings l db2 db' hpc⟩

/-- C10 witness: the empty-literal entry aborts with the NOT NULL constraint
error; the null-text kept reading aborts with the NOT NULL constraint
error; the successfully processed 水 entry had text on its kept elements. -/
theorem C10_not_null_columns_witness :
    processCharacter initDB litEmptyChar = .error .notNullViolation ∧
    processCharacter initDB nullTextChar = .error .notNullViolation ∧
    (ReadingElem.mk (some "ja_on") (some "スイ")).text.isSome = true := by
  refine ⟨?_, ?_, ?_⟩
  · exact (C10_not_null_columns initDB litEmptyChar).2.1
      (none, none, none, none) rfl rfl
  · exact (C10_not_null_columns initDB nullTextChar).2.2.1 "火"
      { readings := [{ r_type := some "ja_on", text := none }], meanings := [] }
      (none, none, none, none) rfl rfl (by decide) rfl
      (Or.inl ⟨⟨some "ja_on", none⟩, by decide, rfl, rfl⟩)
  · exact (((C10_not_null_columns initDB mizuChar).2.2.2 mizuStepDB
      (by decide)).2
      { readings := [{ r_type := some "ja_on", text := some "スイ" },
                     { r_type := some "ja_kun", text := some "みず" }],
        meanings := [{ m_lang := none, text := some "water" },
                     { m_lang := some "fr", text := some "eau" }] }
      (some "水") rfl rfl).1 ⟨some "ja_on", some "スイ"⟩ (by decide) rfl
